import Mathlib

/-!
Verification of `caida_rozamiento_laplace.py`: a falling body with linear
drag, `m * dv/dt = m*g - gamma * v`, solved symbolically via the Laplace
transform and then evaluated numerically over user-chosen scenarios.

The interactive control flow (`leer_float`, `pedir_configuracion_global`,
`pedir_escenarios`, `main`) is embedded as pure functions of an input
stream: each numeric prompt answer is a token (empty, unparseable, or a
parsed number), and `sys.exit` is modelled with `Except`.  Printed
warnings are tracked as abstract messages.  The analytic core
(`construir_solucion_simbolica` and the compiled evaluator `v_num`) is
embedded over the real numbers further below.
-/

/-- Answer typed at one numeric prompt, after `.strip()`: empty text,
text that `float(...)` rejects, or text parsing to the number `q`. -/
inductive InputTok
| vacio
| invalido
| num (q : ℚ)
deriving DecidableEq

/-- Console messages the program can print at the prompts that the
claims refer to (warnings and the invalid-value notice). -/
inductive Msg
| valorInvalido
| advNPuntos
| advNEscenarios
deriving DecidableEq

/-- Embedding of `leer_float(mensaje, default)`: empty input returns the
default, unparseable input prints the invalid-value notice and returns
the default, parseable input returns the parsed value.  The returned
list collects the printed messages. -/
def leer_float (tok : InputTok) (default : ℚ) : ℚ × List Msg :=
  match tok with
  | InputTok.vacio => (default, [])
  | InputTok.invalido => (default, [Msg.valorInvalido])
  | InputTok.num q => (q, [])

/-- Python `int(x)` on a float: truncation toward zero. -/
def int_trunc (q : ℚ) : ℤ :=
  if 0 ≤ q then ⌊q⌋ else ⌈q⌉

/-- Global configuration returned by `pedir_configuracion_global`. -/
structure ConfigGlobal where
  t_max : ℚ
  n_puntos : ℤ
  n_escenarios : ℤ
deriving DecidableEq

/-- The three answers typed at the global-configuration prompts. -/
structure GlobalInput where
  t_max_in : InputTok
  n_puntos_in : InputTok
  n_escenarios_in : InputTok
deriving DecidableEq

/-- Embedding of `pedir_configuracion_global()`: reads `T_max` (default
10.0), the sample count (default 500) and the scenario count (default 1),
exits with status 1 when `t_max <= 0`, then coerces a sample count below
2 to 100 and a scenario count below 1 to 1, each with a warning. -/
def pedir_configuracion_global (gin : GlobalInput) :
    Except Nat (ConfigGlobal × List Msg) :=
  let r1 := leer_float gin.t_max_in 10
  let r2 := leer_float gin.n_puntos_in 500
  let r3 := leer_float gin.n_escenarios_in 1
  let t_max := r1.1
  let n_puntos0 := int_trunc r2.1
  let n_escenarios0 := int_trunc r3.1
  if t_max ≤ 0 then Except.error 1
  else
    let p := if n_puntos0 < 2 then ((100 : ℤ), [Msg.advNPuntos])
             else (n_puntos0, ([] : List Msg))
    let e := if n_escenarios0 < 1 then ((1 : ℤ), [Msg.advNEscenarios])
             else (n_escenarios0, ([] : List Msg))
    Except.ok (⟨t_max, p.1, e.1⟩, r1.2 ++ r2.2 ++ r3.2 ++ p.2 ++ e.2)

/-- Answers typed at the prompts of one scenario. -/
structure EscenarioInput where
  nombre_in : String
  m_in : InputTok
  gamma_in : InputTok
  g_in : InputTok
  v0_in : InputTok

/-- One validated scenario, as appended to the list in
`pedir_escenarios`. -/
structure Escenario where
  nombre : String
  m : ℚ
  gamma : ℚ
  g : ℚ
  v0 : ℚ
deriving DecidableEq

/-- Body of the loop in `pedir_escenarios` for scenario index `i`
(0-based): reads the label (defaulted to `Escenario {i+1}`), the four
physical parameters (defaults 80, 12, 9.81, 0), and exits with status 1
when `m <= 0 or gamma <= 0`. -/
def pedir_escenario (ein : EscenarioInput) (i : ℕ) : Except Nat Escenario :=
  let nombre := if ein.nombre_in = "" then "Escenario " ++ toString (i + 1)
                else ein.nombre_in
  let m_val := (leer_float ein.m_in 80).1
  let gamma_val := (leer_float ein.gamma_in 12).1
  let g_val := (leer_float ein.g_in (9.81 : ℚ)).1
  let v0_val := (leer_float ein.v0_in 0).1
  if m_val ≤ 0 ∨ gamma_val ≤ 0 then Except.error 1
  else Except.ok ⟨nombre, m_val, gamma_val, g_val, v0_val⟩

/-- The loop of `pedir_escenarios`, reading `k` scenarios starting at
index `i` from the input stream `eins`. -/
def pedir_escenarios_desde (eins : ℕ → EscenarioInput) (i : ℕ) :
    ℕ → Except Nat (List Escenario)
  | 0 => Except.ok []
  | k + 1 =>
    match pedir_escenario (eins i) i with
    | Except.error c => Except.error c
    | Except.ok e =>
      match pedir_escenarios_desde eins (i + 1) k with
      | Except.error c => Except.error c
      | Except.ok resto => Except.ok (e :: resto)

/-- Embedding of `pedir_escenarios(n_escenarios)`. -/
def pedir_escenarios (eins : ℕ → EscenarioInput) (n : ℕ) :
    Except Nat (List Escenario) :=
  pedir_escenarios_desde eins 0 n

/-- Embedding of `np.linspace(a, b, n)`: `n` evenly spaced samples from
`a` to `b` inclusive (`[a]` when `n = 1`, empty when `n = 0`). -/
def linspace (a b : ℚ) (n : ℕ) : List ℚ :=
  if n = 1 then [a]
  else (List.range n).map (fun i : ℕ => a + (b - a) * (i : ℚ) / ((n : ℚ) - 1))

/-- Observable outcome of one run of `main()`: the process exit status,
the scenarios that reached numeric evaluation (each also gets its result
block printed), and whether the chart was produced. -/
structure RunOutcome where
  exitCode : Nat
  evaluados : List Escenario
  chart : Bool
deriving DecidableEq

/-- Embedding of `main()`: global configuration, then the scenarios,
then (only if both succeeded) the per-scenario evaluation loop and the
chart; a `sys.exit(1)` on the way leaves no scenario evaluated and no
chart. -/
def main_run (gin : GlobalInput) (eins : ℕ → EscenarioInput) : RunOutcome :=
  match pedir_configuracion_global gin with
  | Except.error c => ⟨c, [], false⟩
  | Except.ok (cfg, _) =>
    match pedir_escenarios eins cfg.n_escenarios.toNat with
    | Except.error c => ⟨c, [], false⟩
    | Except.ok escs => ⟨0, escs, true⟩

/-- The `T_max` value the run works with, as a function of the typed
answer. -/
def t_max_ingresado (gin : GlobalInput) : ℚ :=
  (leer_float gin.t_max_in 10).1

/-- The scenario count the run works with (after truncation and the
below-1 coercion), as a function of the typed answer. -/
def n_escenarios_usado (gin : GlobalInput) : ℕ :=
  (if int_trunc (leer_float gin.n_escenarios_in 1).1 < 1 then (1 : ℤ)
   else int_trunc (leer_float gin.n_escenarios_in 1).1).toNat

/-- The mass entered for one scenario. -/
def masa_ingresada (ein : EscenarioInput) : ℚ :=
  (leer_float ein.m_in 80).1

/-- The drag coefficient entered for one scenario. -/
def gamma_ingresada (ein : EscenarioInput) : ℚ :=
  (leer_float ein.gamma_in 12).1

/-- The run hits a fatal validation error: non-positive `T_max`, or a
non-positive mass or drag coefficient in one of the scenarios actually
read. -/
def entrada_invalida (gin : GlobalInput) (eins : ℕ → EscenarioInput) : Prop :=
  t_max_ingresado gin ≤ 0 ∨
    ∃ i < n_escenarios_usado gin,
      masa_ingresada (eins i) ≤ 0 ∨ gamma_ingresada (eins i) ≤ 0

/-- Unfolding of `pedir_escenario` through the entered values. -/
lemma pedir_escenario_eq (ein : EscenarioInput) (i : ℕ) :
    pedir_escenario ein i =
      if masa_ingresada ein ≤ 0 ∨ gamma_ingresada ein ≤ 0 then Except.error 1
      else Except.ok
        ⟨if ein.nombre_in = "" then "Escenario " ++ toString (i + 1) else ein.nombre_in,
         masa_ingresada ein, gamma_ingresada ein,
         (leer_float ein.g_in (9.81 : ℚ)).1, (leer_float ein.v0_in 0).1⟩ := rfl

/-- When every scenario to be read has positive mass and drag, the
reading loop succeeds. -/
lemma desde_ok_of_validos (eins : ℕ → EscenarioInput) :
    ∀ k i,
      (∀ j, j < k →
        ¬(masa_ingresada (eins (i + j)) ≤ 0 ∨ gamma_ingresada (eins (i + j)) ≤ 0)) →
      ∃ l, pedir_escenarios_desde eins i k = Except.ok l := by
  intro k
  induction k with
  | zero => exact fun i _ => ⟨[], rfl⟩
  | succ k ih =>
    intro i h
    have h0 : ¬(masa_ingresada (eins i) ≤ 0 ∨ gamma_ingresada (eins i) ≤ 0) := by
      simpa using h 0 (Nat.succ_pos k)
    obtain ⟨l, hl⟩ := ih (i + 1) (fun j hj => by
      have hij : i + 1 + j = i + (j + 1) := by omega
      rw [hij]
      exact h (j + 1) (by omega))
    refine ⟨(⟨if (eins i).nombre_in = "" then "Escenario " ++ toString (i + 1)
              else (eins i).nombre_in,
             masa_ingresada (eins i), gamma_ingresada (eins i),
             (leer_float (eins i).g_in (9.81 : ℚ)).1,
             (leer_float (eins i).v0_in 0).1⟩ : Escenario) :: l, ?_⟩
    simp only [pedir_escenarios_desde, pedir_escenario_eq, if_neg h0, hl]

/-- When one of the scenarios to be read has non-positive mass or drag,
the reading loop exits with status 1. -/
lemma desde_error_of_invalido (eins : ℕ → EscenarioInput) :
    ∀ k i,
      (∃ j, j < k ∧
        (masa_ingresada (eins (i + j)) ≤ 0 ∨ gamma_ingresada (eins (i + j)) ≤ 0)) →
      pedir_escenarios_desde eins i k = Except.error 1 := by
  intro k
  induction k with
  | zero => rintro i ⟨j, hj, -⟩; omega
  | succ k ih =>
    rintro i ⟨j, hj, hbad⟩
    by_cases h0 : masa_ingresada (eins i) ≤ 0 ∨ gamma_ingresada (eins i) ≤ 0
    · simp [pedir_escenarios_desde, pedir_escenario_eq, h0]
    · have hj0 : j ≠ 0 := by rintro rfl; exact h0 (by simpa using hbad)
      obtain ⟨j2, rfl⟩ := Nat.exists_eq_succ_of_ne_zero hj0
      have hrec : pedir_escenarios_desde eins (i + 1) k = Except.error 1 := by
        refine ih (i + 1) ⟨j2, by omega, ?_⟩
        have hij : i + 1 + j2 = i + (j2 + 1) := by omega
        rw [hij]; exact hbad
      simp [pedir_escenarios_desde, pedir_escenario_eq, h0, hrec]

/-- Every scenario the reading loop returns has positive mass and drag
coefficient. -/
lemma desde_ok_positivos (eins : ℕ → EscenarioInput) :
    ∀ k i l, pedir_escenarios_desde eins i k = Except.ok l →
      ∀ e ∈ l, 0 < e.m ∧ 0 < e.gamma := by
  intro k
  induction k with
  | zero =>
    intro i l hl e he
    simp only [pedir_escenarios_desde, Except.ok.injEq] at hl
    subst hl
    simp at he
  | succ k ih =>
    intro i l hl e he
    by_cases h0 : masa_ingresada (eins i) ≤ 0 ∨ gamma_ingresada (eins i) ≤ 0
    · simp [pedir_escenarios_desde, pedir_escenario_eq, h0] at hl
    · rcases hrec : pedir_escenarios_desde eins (i + 1) k with c | resto
      · simp [pedir_escenarios_desde, pedir_escenario_eq, h0, hrec] at hl
      · simp only [pedir_escenarios_desde, pedir_escenario_eq, if_neg h0, hrec,
          Except.ok.injEq] at hl
        subst hl
        rcases List.mem_cons.mp he with rfl | hmem
        · push_neg at h0
          exact ⟨h0.1, h0.2⟩
        · exact ih (i + 1) resto hrec e hmem

/-- When `T_max` is positive, the global-configuration function returns
the entered `T_max` together with the (possibly coerced) sample and
scenario counts, printing a warning for each coercion. -/
lemma config_ok (gin : GlobalInput) (h : 0 < t_max_ingresado gin) :
    ∃ msgs, pedir_configuracion_global gin =
      Except.ok
        (⟨t_max_ingresado gin,
          if int_trunc (leer_float gin.n_puntos_in 500).1 < 2 then 100
          else int_trunc (leer_float gin.n_puntos_in 500).1,
          if int_trunc (leer_float gin.n_escenarios_in 1).1 < 1 then 1
          else int_trunc (leer_float gin.n_escenarios_in 1).1⟩, msgs) ∧
      (int_trunc (leer_float gin.n_puntos_in 500).1 < 2 → Msg.advNPuntos ∈ msgs) ∧
      (int_trunc (leer_float gin.n_escenarios_in 1).1 < 1 → Msg.advNEscenarios ∈ msgs) := by
  have ht : ¬((leer_float gin.t_max_in 10).1 ≤ 0) := not_le.2 h
  simp only [pedir_configuracion_global, if_neg ht]
  split_ifs with h1 h2 h2
  · exact ⟨_, rfl, fun _ => by simp, fun _ => by simp⟩
  · exact ⟨_, rfl, fun _ => by simp, fun hc => absurd hc h2⟩
  · exact ⟨_, rfl, fun hc => absurd hc h1, fun _ => by simp⟩
  · exact ⟨_, rfl, fun hc => absurd hc h1, fun hc => absurd hc h2⟩

/-- Number of samples in a `linspace` grid. -/
lemma linspace_length (a b : ℚ) (n : ℕ) : (linspace a b n).length = n := by
  unfold linspace
  split_ifs with h
  · simp [h]
  · rw [List.length_map, List.length_range]

/-- Element `i` of a `linspace` grid with at least two samples. -/
lemma linspace_getElem (a b : ℚ) (n i : ℕ) (hn : n ≠ 1) (hi : i < n) :
    (linspace a b n)[i]? = some (a + (b - a) * i / ((n : ℚ) - 1)) := by
  unfold linspace
  rw [if_neg hn, List.getElem?_map, List.getElem?_range hi]
  rfl

/-- Input stream whose every scenario prompt is answered with the empty
string, so every parameter takes its default (m = 80, gamma = 12,
g = 9.81, v0 = 0). -/
def einsDefecto : ℕ → EscenarioInput :=
  fun _ => ⟨"", InputTok.vacio, InputTok.vacio, InputTok.vacio, InputTok.vacio⟩

/-- Global answers all left empty: T_max = 10, 500 samples, 1 scenario. -/
def ginDefecto : GlobalInput := ⟨InputTok.vacio, InputTok.vacio, InputTok.vacio⟩

/-- Global answers with a negative `T_max` typed in. -/
def ginTmaxNeg : GlobalInput := ⟨InputTok.num (-5), InputTok.vacio, InputTok.vacio⟩

/-- Global answers with too few samples and too few scenarios typed in. -/
def ginChico : GlobalInput := ⟨InputTok.vacio, InputTok.num 1, InputTok.num 0⟩

/-- C6: a run with non-positive `T_max`, or with a non-positive mass or
drag coefficient among the scenarios read, exits with status 1 with no
scenario evaluated, no result printed and no chart; otherwise it exits
with status 0 after producing the chart. -/
theorem claim_C6 (gin : GlobalInput) (eins : ℕ → EscenarioInput) :
    (entrada_invalida gin eins → main_run gin eins = ⟨1, [], false⟩) ∧
    (¬ entrada_invalida gin eins →
      (main_run gin eins).exitCode = 0 ∧ (main_run gin eins).chart = true) := by
  have herrcfg : t_max_ingresado gin ≤ 0 →
      pedir_configuracion_global gin = Except.error 1 := by
    intro ht
    have ht2 : (leer_float gin.t_max_in 10).1 ≤ 0 := ht
    simp only [pedir_configuracion_global, if_pos ht2]
  constructor
  · intro h
    rcases h with ht | ⟨i, hi, hbad⟩
    · simp [main_run, herrcfg ht]
    · by_cases ht : t_max_ingresado gin ≤ 0
      · simp [main_run, herrcfg ht]
      · push_neg at ht
        obtain ⟨msgs, hcfg, -, -⟩ := config_ok gin ht
        have herr : pedir_escenarios eins (n_escenarios_usado gin) = Except.error 1 := by
          refine desde_error_of_invalido eins _ 0 ⟨i, hi, ?_⟩
          simpa using hbad
        simp only [main_run, hcfg]
        have hesc : pedir_escenarios eins
            (Int.toNat (if int_trunc (leer_float gin.n_escenarios_in 1).1 < 1 then 1
              else int_trunc (leer_float gin.n_escenarios_in 1).1)) = Except.error 1 := herr
        rw [hesc]
  · intro h
    rw [entrada_invalida] at h
    push_neg at h
    obtain ⟨ht, hall⟩ := h
    obtain ⟨msgs, hcfg, -, -⟩ := config_ok gin ht
    obtain ⟨l, hl⟩ := desde_ok_of_validos eins (n_escenarios_usado gin) 0 (fun j hj => by
      have := hall j (by simpa [n_escenarios_usado] using hj)
      simp only [Nat.zero_add, not_or, not_le]
      exact this)
    have hesc : pedir_escenarios eins
        (Int.toNat (if int_trunc (leer_float gin.n_escenarios_in 1).1 < 1 then 1
          else int_trunc (leer_float gin.n_escenarios_in 1).1)) = Except.ok l := hl
    simp only [main_run, hcfg, hesc]
    exact ⟨by trivial, by trivial⟩

/-- Witness for C6 at concrete inputs: a negative typed `T_max` gives
exit status 1 with nothing evaluated; the all-defaults run gives exit
status 0 with the chart shown. -/
theorem claim_C6_witness :
    main_run ginTmaxNeg einsDefecto = ⟨1, [], false⟩ ∧
    (main_run ginDefecto einsDefecto).exitCode = 0 ∧
    (main_run ginDefecto einsDefecto).chart = true := by
  constructor
  · refine (claim_C6 ginTmaxNeg einsDefecto).1 (Or.inl ?_)
    norm_num [t_max_ingresado, ginTmaxNeg, leer_float]
  · refine (claim_C6 ginDefecto einsDefecto).2 ?_
    rw [entrada_invalida]
    push_neg
    constructor
    · norm_num [t_max_ingresado, ginDefecto, leer_float]
    · intro i _
      constructor
      · norm_num [masa_ingresada, einsDefecto, leer_float]
      · norm_num [gamma_ingresada, einsDefecto, leer_float]

/-- C7: a sample count below 2 is coerced to 100 and a scenario count
below 1 is coerced to 1, each with a printed warning, and
`pedir_configuracion_global` still returns normally. -/
theorem claim_C7 (gin : GlobalInput) (ht : 0 < t_max_ingresado gin) :
    ∃ cfg msgs, pedir_configuracion_global gin = Except.ok (cfg, msgs) ∧
      (int_trunc (leer_float gin.n_puntos_in 500).1 < 2 →
        cfg.n_puntos = 100 ∧ Msg.advNPuntos ∈ msgs) ∧
      (int_trunc (leer_float gin.n_escenarios_in 1).1 < 1 →
        cfg.n_escenarios = 1 ∧ Msg.advNEscenarios ∈ msgs) := by
  obtain ⟨msgs, hcfg, h1, h2⟩ := config_ok gin ht
  refine ⟨_, msgs, hcfg, fun hc => ⟨?_, h1 hc⟩, fun hc => ⟨?_, h2 hc⟩⟩
  · simp [if_pos hc]
  · simp [if_pos hc]

/-- Witness for C7: entering 1 sample and 0 scenarios (with the default
`T_max`) yields a normal return with 100 samples and 1 scenario, and
both warnings printed. -/
theorem claim_C7_witness :
    0 < t_max_ingresado ginChico ∧
    (∃ cfg msgs, pedir_configuracion_global ginChico = Except.ok (cfg, msgs) ∧
      (int_trunc (leer_float ginChico.n_puntos_in 500).1 < 2 →
        cfg.n_puntos = 100 ∧ Msg.advNPuntos ∈ msgs) ∧
      (int_trunc (leer_float ginChico.n_escenarios_in 1).1 < 1 →
        cfg.n_escenarios = 1 ∧ Msg.advNEscenarios ∈ msgs)) :=
  ⟨by norm_num [t_max_ingresado, ginChico, leer_float],
   claim_C7 ginChico (by norm_num [t_max_ingresado, ginChico, leer_float])⟩

/-- C8: `leer_float` is total at every numeric prompt: empty input
returns the default with nothing printed, unparseable input returns the
default after reporting it, and parseable input returns the parsed
value. -/
theorem claim_C8 (d q : ℚ) :
    leer_float InputTok.vacio d = (d, []) ∧
    leer_float InputTok.invalido d = (d, [Msg.valorInvalido]) ∧
    leer_float (InputTok.num q) d = (q, []) :=
  ⟨rfl, rfl, rfl⟩

/-- C9: any run that reaches the numeric-evaluation loop only evaluates
scenarios whose mass and drag coefficient are strictly positive, so the
division-by-zero branch of the evaluator is unreachable. -/
theorem claim_C9 (gin : GlobalInput) (eins : ℕ → EscenarioInput)
    (_h : (main_run gin eins).exitCode = 0) :
    ∀ e ∈ (main_run gin eins).evaluados, 0 < e.m ∧ 0 < e.gamma := by
  rcases hc : pedir_configuracion_global gin with c | p
  · intro e he
    simp [main_run, hc] at he
  · obtain ⟨cfg, msgs⟩ := p
    rcases hp : pedir_escenarios eins cfg.n_escenarios.toNat with c | escs
    · intro e he
      simp [main_run, hc, hp] at he
    · intro e he
      simp only [main_run, hc, hp] at he
      exact desde_ok_positivos eins cfg.n_escenarios.toNat 0 escs hp e he

/-- Input stream whose scenario prompts take the defaults except for a
typed-in gravity of 10. -/
def einsGDiez : ℕ → EscenarioInput :=
  fun _ => ⟨"", InputTok.vacio, InputTok.vacio, InputTok.num 10, InputTok.vacio⟩

/-- Witness for C9: a run with default mass and drag reaches evaluation
(exit code 0), and its one evaluated scenario has positive mass and
drag. -/
theorem claim_C9_witness :
    (main_run ginDefecto einsGDiez).exitCode = 0 ∧
    (0 : ℚ) < (Escenario.mk "Escenario 1" 80 12 10 0).m ∧
    (0 : ℚ) < (Escenario.mk "Escenario 1" 80 12 10 0).gamma := by
  have hev : (main_run ginDefecto einsGDiez).evaluados =
      [Escenario.mk "Escenario 1" 80 12 10 0] := by decide
  have h := claim_C9 ginDefecto einsGDiez (by decide)
    (Escenario.mk "Escenario 1" 80 12 10 0)
    (by rw [hev]; exact List.mem_singleton.mpr rfl)
  exact ⟨by decide, h.1, h.2⟩

/-- C10: empty (or malformed) input at the sample-count prompt yields
500 samples — the prompt default, not the 100 of the coercion branch —
and the shared grid then has exactly 500 evenly spaced points from 0.0
to `t_max`. -/
theorem claim_C10 (gin : GlobalInput)
    (hv : gin.n_puntos_in = InputTok.vacio ∨ gin.n_puntos_in = InputTok.invalido)
    (ht : 0 < t_max_ingresado gin) :
    ∃ cfg msgs, pedir_configuracion_global gin = Except.ok (cfg, msgs) ∧
      cfg.n_puntos = 500 ∧ cfg.t_max = t_max_ingresado gin ∧
      (linspace 0 cfg.t_max 500).length = 500 ∧
      (linspace 0 cfg.t_max 500)[0]? = some 0 ∧
      (linspace 0 cfg.t_max 500).getLast? = some cfg.t_max ∧
      (∀ i : ℕ, i < 500 →
        (linspace 0 cfg.t_max 500)[i]? = some (cfg.t_max * i / 499)) := by
  have h500 : (leer_float gin.n_puntos_in 500).1 = 500 := by
    rcases hv with hv | hv <;> rw [hv] <;> rfl
  have htr : int_trunc (leer_float gin.n_puntos_in 500).1 = 500 := by
    rw [h500]
    norm_num [int_trunc]
  obtain ⟨msgs, hcfg, -, -⟩ := config_ok gin ht
  rw [htr] at hcfg
  have hnp : ¬((500 : ℤ) < 2) := by norm_num
  rw [if_neg hnp] at hcfg
  refine ⟨_, msgs, hcfg, rfl, rfl, linspace_length 0 _ 500, ?_, ?_, ?_⟩
  · rw [linspace_getElem 0 _ 500 0 (by norm_num) (by norm_num)]
    norm_num
  · rw [List.getLast?_eq_getElem? (linspace 0 _ 500), linspace_length,
      linspace_getElem 0 _ 500 499 (by norm_num) (by norm_num)]
    norm_num
  · intro i hi
    rw [linspace_getElem 0 _ 500 i (by norm_num) hi]
    norm_num

/-- Witness for C10: with every prompt left empty, the run uses 500
samples on the grid from 0 to 10. -/
theorem claim_C10_witness :
    (ginDefecto.n_puntos_in = InputTok.vacio ∨
      ginDefecto.n_puntos_in = InputTok.invalido) ∧
    0 < t_max_ingresado ginDefecto ∧
    (∃ cfg msgs, pedir_configuracion_global ginDefecto = Except.ok (cfg, msgs) ∧
      cfg.n_puntos = 500 ∧ cfg.t_max = t_max_ingresado ginDefecto ∧
      (linspace 0 cfg.t_max 500).length = 500 ∧
      (linspace 0 cfg.t_max 500)[0]? = some 0 ∧
      (linspace 0 cfg.t_max 500).getLast? = some cfg.t_max ∧
      (∀ i : ℕ, i < 500 →
        (linspace 0 cfg.t_max 500)[i]? = some (cfg.t_max * i / 499))) :=
  ⟨Or.inl rfl, by norm_num [t_max_ingresado, ginDefecto, leer_float],
   claim_C10 ginDefecto (Or.inl rfl)
     (by norm_num [t_max_ingresado, ginDefecto, leer_float])⟩

/-!
Analytic core.  `construir_solucion_simbolica` poses the Laplace-domain
equation `m*(s*V - v0) = m*g/s - gamma*V`, solves it for `V(s)` and
applies the inverse Laplace transform; the claims below verify that the
equation has a unique solution and that the closed form the spec states
is exactly the function whose Laplace transform is that solution.
-/

open MeasureTheory

/-- Laplace-domain equation posed by `construir_solucion_simbolica`:
`m*(s*V - v0) = m*g/s - gamma*V`, with `V` the value of the unknown
transform at `s`. -/
def eq_L (m gamma g v0 s V : ℝ) : Prop :=
  m * (s * V - v0) = m * g / s - gamma * V

/-- The rational function of `s` that solving the linear equation
`eq_L` for `V` yields (the `sp.solve(eq_L, V)[0]` step). -/
noncomputable def V_sol (m gamma g v0 s : ℝ) : ℝ :=
  (m * g / s + m * v0) / (m * s + gamma)

/-- The closed-form time-domain solution `v_expr` that the inverse
Laplace transform step recovers:
`v(t) = (m*g/gamma)*(1 - exp(-gamma*t/m)) + v0*exp(-gamma*t/m)`. -/
noncomputable def v_expr (m gamma g v0 t : ℝ) : ℝ :=
  m * g / gamma * (1 - Real.exp (-(gamma * t) / m)) +
    v0 * Real.exp (-(gamma * t) / m)

/-- The (one-sided) Laplace transform. -/
noncomputable def laplace (f : ℝ → ℝ) (s : ℝ) : ℝ :=
  ∫ t in Set.Ioi (0 : ℝ), Real.exp (-(s * t)) * f t

/-- The compiled evaluator `v_num = sp.lambdify((t, m, gamma, g, v0),
v_expr)` applied elementwise to a time grid (exact-real model of the
vectorized evaluation). -/
noncomputable def v_num (ts : List ℝ) (m gamma g v0 : ℝ) : List ℝ :=
  ts.map (fun t => v_expr m gamma g v0 t)

/-- Improper integral of an exponential decay. -/
lemma integral_exp_decay {b : ℝ} (hb : 0 < b) :
    ∫ t in Set.Ioi (0 : ℝ), Real.exp (-(b * t)) = 1 / b := by
  have hderiv : ∀ x ∈ Set.Ici (0 : ℝ),
      HasDerivAt (fun a => -Real.exp (-(b * a)) / b) (Real.exp (-(b * x))) x := by
    intro x _
    have h1 : HasDerivAt (fun a : ℝ => -(b * a)) (-b) x := by
      simpa using (hasDerivAt_id x).const_mul (-b)
    have h3 := (h1.exp.neg).div_const b
    convert h3 using 1
    field_simp
  have hint : IntegrableOn (fun x => Real.exp (-(b * x))) (Set.Ioi 0) := by
    simpa [neg_mul] using exp_neg_integrableOn_Ioi 0 hb
  have htend : Filter.Tendsto (fun a => -Real.exp (-(b * a)) / b)
      Filter.atTop (nhds 0) := by
    have h1 : Filter.Tendsto (fun a : ℝ => b * a) Filter.atTop Filter.atTop :=
      Filter.Tendsto.const_mul_atTop hb Filter.tendsto_id
    have h2 : Filter.Tendsto (fun a : ℝ => Real.exp (-(b * a)))
        Filter.atTop (nhds 0) := Real.tendsto_exp_neg_atTop_nhds_zero.comp h1
    have h5 := (h2.neg).div_const b
    simpa using h5
  have hres := integral_Ioi_of_hasDerivAt_of_tendsto' hderiv hint htend
  rw [hres]
  have hval : Real.exp (-(b * 0)) = 1 := by norm_num
  rw [hval]
  ring

/-- `V_sol` is the unique solution of the Laplace-domain equation. -/
lemma eq_L_unique (m gamma g v0 s : ℝ) (hm : 0 < m) (hg : 0 < gamma)
    (hs : 0 < s) :
    ∀ V : ℝ, eq_L m gamma g v0 s V ↔ V = V_sol m gamma g v0 s := by
  intro V
  have hden : m * s + gamma ≠ 0 := by positivity
  have hs0 : s ≠ 0 := ne_of_gt hs
  unfold eq_L V_sol
  constructor
  · intro h
    rw [eq_div_iff hden]
    linear_combination h
  · intro h
    subst h
    field_simp
    ring

/-- The Laplace transform of the closed-form solution equals the
rational function obtained by the algebraic solve, so the closed form is
exactly the inverse Laplace transform the solver computes. -/
lemma laplace_v_expr (m gamma g v0 s : ℝ) (hm : 0 < m) (hg : 0 < gamma)
    (hs : 0 < s) :
    laplace (v_expr m gamma g v0) s = V_sol m gamma g v0 s := by
  have hsk : 0 < s + gamma / m := by positivity
  have hm0 : m ≠ 0 := ne_of_gt hm
  have hpt : ∀ t : ℝ, Real.exp (-(s * t)) * v_expr m gamma g v0 t =
      m * g / gamma * Real.exp (-(s * t)) +
        (v0 - m * g / gamma) * Real.exp (-((s + gamma / m) * t)) := by
    intro t
    have hexp : Real.exp (-((s + gamma / m) * t)) =
        Real.exp (-(s * t)) * Real.exp (-(gamma * t) / m) := by
      rw [← Real.exp_add]
      congr 1
      field_simp
      ring
    rw [hexp]
    unfold v_expr
    ring
  have hbase1 : IntegrableOn (fun t => Real.exp (-(s * t))) (Set.Ioi (0:ℝ)) := by
    simpa [neg_mul] using exp_neg_integrableOn_Ioi 0 hs
  have hbase2 : IntegrableOn (fun t => Real.exp (-((s + gamma / m) * t)))
      (Set.Ioi (0:ℝ)) := by
    have h6 := exp_neg_integrableOn_Ioi 0 hsk
    have h7 : (fun x : ℝ => Real.exp (-(s + gamma / m) * x)) =
        (fun t : ℝ => Real.exp (-((s + gamma / m) * t))) := by
      funext x
      rw [neg_mul]
    rwa [h7] at h6
  have hint1 : IntegrableOn (fun t => m * g / gamma * Real.exp (-(s * t)))
      (Set.Ioi (0:ℝ)) := hbase1.const_mul _
  have hint2 : IntegrableOn
      (fun t => (v0 - m * g / gamma) * Real.exp (-((s + gamma / m) * t)))
      (Set.Ioi (0:ℝ)) := hbase2.const_mul _
  unfold laplace
  simp only [hpt]
  rw [MeasureTheory.integral_add hint1 hint2, MeasureTheory.integral_mul_left,
    MeasureTheory.integral_mul_left, integral_exp_decay hs, integral_exp_decay hsk]
  unfold V_sol
  have hden : m * s + gamma ≠ 0 := by positivity
  field_simp
  ring

/-- C1: the Laplace-domain equation posed by the solver has a unique
solution `V_sol`, and the closed form
`v(t) = (m*g/gamma)*(1 - exp(-gamma*t/m)) + v0*exp(-gamma*t/m)` is its
inverse Laplace transform: for every `s > 0` the Laplace transform of
`v_expr` equals `V_sol`. -/
theorem claim_C1 (m gamma g v0 : ℝ) (hm : 0 < m) (hg : 0 < gamma) :
    ∀ s : ℝ, 0 < s →
      (∀ V : ℝ, eq_L m gamma g v0 s V ↔ V = V_sol m gamma g v0 s) ∧
      laplace (v_expr m gamma g v0) s = V_sol m gamma g v0 s ∧
      ∀ t : ℝ, v_expr m gamma g v0 t =
        m * g / gamma * (1 - Real.exp (-(gamma * t) / m)) +
          v0 * Real.exp (-(gamma * t) / m) :=
  fun s hs =>
    ⟨eq_L_unique m gamma g v0 s hm hg hs,
     laplace_v_expr m gamma g v0 s hm hg hs,
     fun _ => rfl⟩

/-- Witness for C1 at `m = 1`, `gamma = 1`, `g = 1`, `v0 = 0`, `s = 1`. -/
theorem claim_C1_witness :
    (0 : ℝ) < 1 ∧
    ((∀ V : ℝ, eq_L 1 1 1 0 1 V ↔ V = V_sol 1 1 1 0 1) ∧
      laplace (v_expr 1 1 1 0) 1 = V_sol 1 1 1 0 1 ∧
      ∀ t : ℝ, v_expr 1 1 1 0 t =
        1 * 1 / 1 * (1 - Real.exp (-(1 * t) / 1)) +
          0 * Real.exp (-(1 * t) / 1)) :=
  ⟨by norm_num, claim_C1 1 1 1 0 (by norm_num) (by norm_num) 1 (by norm_num)⟩

/-- The closed form evaluated at `t = 0`. -/
lemma v_expr_cero (m gamma g v0 : ℝ) : v_expr m gamma g v0 0 = v0 := by
  unfold v_expr
  simp

/-- C2: for any parameters with `m > 0`, `gamma > 0`, `g > 0` and any
real `v0`, the derived solution at `t = 0` is exactly `v0`, and the
compiled evaluator applied to the grid point `t = 0` returns `v0`,
within an absolute tolerance of `1e-9`. -/
theorem claim_C2 (m gamma g v0 : ℝ) (_hm : 0 < m) (_hg : 0 < gamma)
    (_hgrav : 0 < g) :
    v_expr m gamma g v0 0 = v0 ∧
    v_num [0] m gamma g v0 = [v0] ∧
    ∀ y ∈ v_num [0] m gamma g v0, |y - v0| ≤ 1 / 10 ^ 9 := by
  have h0 := v_expr_cero m gamma g v0
  refine ⟨h0, by simp [v_num, h0], ?_⟩
  intro y hy
  simp only [v_num, List.map_cons, List.map_nil, List.mem_singleton] at hy
  subst hy
  rw [h0]
  simp

/-- Witness for C2 at `m = 1`, `gamma = 1`, `g = 1`, `v0 = -3`
(a non-positive initial velocity). -/
theorem claim_C2_witness :
    (0 : ℝ) < 1 ∧
    (v_expr 1 1 1 (-3) 0 = -3 ∧
      v_num [0] 1 1 1 (-3) = [-3] ∧
      ∀ y ∈ v_num [0] 1 1 1 (-3), |y - (-3)| ≤ 1 / 10 ^ 9) :=
  ⟨by norm_num, claim_C2 1 1 1 (-3) (by norm_num) (by norm_num) (by norm_num)⟩

/-- C3: for `t ≥ 10·m/gamma` the deviation from the terminal velocity
`m·g/gamma` is exactly `(v0 − m·g/gamma)·exp(−gamma·t/m)`, and is
bounded by `|v0 − m·g/gamma|·exp(−10)`. -/
theorem claim_C3 (m gamma g v0 t : ℝ) (hm : 0 < m) (hg : 0 < gamma)
    (ht : 10 * m / gamma ≤ t) :
    v_expr m gamma g v0 t - m * g / gamma =
      (v0 - m * g / gamma) * Real.exp (-(gamma * t) / m) ∧
    |v_expr m gamma g v0 t - m * g / gamma| ≤
      |v0 - m * g / gamma| * Real.exp (-10) := by
  have hdev : v_expr m gamma g v0 t - m * g / gamma =
      (v0 - m * g / gamma) * Real.exp (-(gamma * t) / m) := by
    unfold v_expr
    ring
  refine ⟨hdev, ?_⟩
  rw [hdev, abs_mul, Real.abs_exp]
  refine mul_le_mul_of_nonneg_left ?_ (abs_nonneg _)
  rw [Real.exp_le_exp]
  rw [div_le_iff₀ hg] at ht
  rw [neg_div, neg_le_neg_iff, le_div_iff₀ hm]
  linarith

/-- Witness for C3 at `m = 1`, `gamma = 1`, `g = 1`, `v0 = 0`,
`t = 10`. -/
theorem claim_C3_witness :
    (0 : ℝ) < 1 ∧ 10 * (1 : ℝ) / 1 ≤ 10 ∧
    (v_expr 1 1 1 0 10 - 1 * 1 / 1 =
      (0 - 1 * 1 / 1) * Real.exp (-(1 * 10) / 1) ∧
     |v_expr 1 1 1 0 10 - 1 * 1 / 1| ≤
      |0 - 1 * 1 / 1| * Real.exp (-10)) :=
  ⟨by norm_num, by norm_num,
   claim_C3 1 1 1 0 10 (by norm_num) (by norm_num) (by norm_num)⟩

/-- C4: with the terminal velocity `c = m·g/gamma`, the solution is
non-decreasing on `[0, ∞)` when `v0 < c`, non-increasing when `v0 > c`,
and constant (equal to `v0`) when `v0 = c`. -/
theorem claim_C4 (m gamma g v0 : ℝ) (hm : 0 < m) (hg : 0 < gamma) :
    (v0 < m * g / gamma →
      ∀ t1 t2 : ℝ, 0 ≤ t1 → t1 ≤ t2 →
        v_expr m gamma g v0 t1 ≤ v_expr m gamma g v0 t2) ∧
    (m * g / gamma < v0 →
      ∀ t1 t2 : ℝ, 0 ≤ t1 → t1 ≤ t2 →
        v_expr m gamma g v0 t2 ≤ v_expr m gamma g v0 t1) ∧
    (v0 = m * g / gamma → ∀ t : ℝ, v_expr m gamma g v0 t = v0) := by
  have hEmono : ∀ t1 t2 : ℝ, t1 ≤ t2 →
      Real.exp (-(gamma * t2) / m) ≤ Real.exp (-(gamma * t1) / m) := by
    intro t1 t2 h12
    rw [Real.exp_le_exp]
    have hfrac : gamma * t1 / m ≤ gamma * t2 / m := by
      gcongr
    rw [neg_div, neg_div, neg_le_neg_iff]
    exact hfrac
  refine ⟨?_, ?_, ?_⟩
  · intro hlt t1 t2 _ h12
    have hE := hEmono t1 t2 h12
    unfold v_expr
    nlinarith [mul_nonneg (sub_nonneg.mpr (le_of_lt hlt))
      (sub_nonneg.mpr hE)]
  · intro hlt t1 t2 _ h12
    have hE := hEmono t1 t2 h12
    unfold v_expr
    nlinarith [mul_nonneg (sub_nonneg.mpr (le_of_lt hlt))
      (sub_nonneg.mpr hE)]
  · intro hv t
    subst hv
    unfold v_expr
    ring

/-- Witness for C4 at `m = 1`, `gamma = 1`, `g = 1`, `v0 = 0`. -/
theorem claim_C4_witness :
    (0 : ℝ) < 1 ∧
    ((0 < 1 * 1 / (1:ℝ) →
      ∀ t1 t2 : ℝ, 0 ≤ t1 → t1 ≤ t2 →
        v_expr 1 1 1 0 t1 ≤ v_expr 1 1 1 0 t2) ∧
     (1 * 1 / (1:ℝ) < 0 →
      ∀ t1 t2 : ℝ, 0 ≤ t1 → t1 ≤ t2 →
        v_expr 1 1 1 0 t2 ≤ v_expr 1 1 1 0 t1) ∧
     ((0:ℝ) = 1 * 1 / 1 → ∀ t : ℝ, v_expr 1 1 1 0 t = 0)) :=
  ⟨by norm_num, claim_C4 1 1 1 0 (by norm_num) (by norm_num)⟩

/-- Two-sided bound on `exp 0.5` from the nine-digit bounds on `e`. -/
lemma exp_half_bounds : 1.6487 < Real.exp 0.5 ∧ Real.exp 0.5 < 1.6488 := by
  have he1 := Real.exp_one_gt_d9
  have he2 := Real.exp_one_lt_d9
  have hsq : Real.exp 0.5 * Real.exp 0.5 = Real.exp 1 := by
    rw [← Real.exp_add]
    norm_num
  have hpos : 0 < Real.exp 0.5 := Real.exp_pos _
  constructor
  · nlinarith
  · nlinarith

/-- Two-sided bound on `exp 1.5`. -/
lemma exp_3half_bounds : 4.4816 < Real.exp 1.5 ∧ Real.exp 1.5 < 4.4820 := by
  obtain ⟨h1, h2⟩ := exp_half_bounds
  have he1 := Real.exp_one_gt_d9
  have he2 := Real.exp_one_lt_d9
  have h15 : Real.exp 1.5 = Real.exp 1 * Real.exp 0.5 := by
    rw [← Real.exp_add]
    norm_num
  have hpos : 0 < Real.exp 0.5 := Real.exp_pos _
  have hpos1 : 0 < Real.exp 1 := Real.exp_pos _
  rw [h15]
  constructor
  · nlinarith
  · nlinarith

/-- Two-sided bound on `exp (-1.5)`. -/
lemma exp_neg_3half_bounds :
    0.22311 < Real.exp (-1.5) ∧ Real.exp (-1.5) < 0.22314 := by
  obtain ⟨h1, h2⟩ := exp_3half_bounds
  have hmul : Real.exp (-1.5) * Real.exp 1.5 = 1 := by
    rw [← Real.exp_add]
    norm_num
  have hpos : 0 < Real.exp 1.5 := Real.exp_pos _
  constructor
  · nlinarith
  · nlinarith

/-- C5: in the concrete scenario `m = 80`, `gamma = 12`, `g = 9.81`,
`v0 = 0`, `T_max = 10`, the terminal velocity is exactly `65.4` and
`v(10) = 65.4·(1 − exp(−1.5))`, which is within `0.005` of `50.81`. -/
theorem claim_C5 :
    (80 * 9.81 / 12 : ℝ) = 65.4 ∧
    v_expr 80 12 9.81 0 10 = 65.4 * (1 - Real.exp (-1.5)) ∧
    |v_expr 80 12 9.81 0 10 - 50.81| < 0.005 := by
  have h2 : v_expr 80 12 9.81 0 10 = 65.4 * (1 - Real.exp (-1.5)) := by
    have harg : (-(12 * 10 : ℝ) / 80) = -1.5 := by norm_num
    unfold v_expr
    rw [harg]
    norm_num
  obtain ⟨hx1, hx2⟩ := exp_neg_3half_bounds
  refine ⟨by norm_num, h2, ?_⟩
  rw [h2, abs_lt]
  constructor
  · nlinarith
  · nlinarith
